import Mathlib

/-!
Shallow embedding of the Store layer of `powerpops.py` (class
`ResourceReservationSystem`) together with the admin release action
(`remove_reservation_ui`).  The two SQLite tables `resources` and
`reservations` are modelled as lists of rows; the AUTOINCREMENT counter of
the `reservations` table is carried explicitly in the state.  SQL
statements that can fail (the dynamically built UPDATE of
`update_resource`) return `Except`; `create_reservation`, whose body runs
inside `try ... except sqlite3.Error`, is modelled with an explicit
error-oracle flag for the database error that the handler can catch.
-/

/-- A row of the `resources` table:
`(id INTEGER PRIMARY KEY, name TEXT, description TEXT, available INTEGER DEFAULT 1)`. -/
structure Resource where
  id : Nat
  name : String
  description : String
  available : Nat
  deriving DecidableEq, Repr

/-- A row of the `reservations` table:
`(id INTEGER PRIMARY KEY AUTOINCREMENT, resource_id INTEGER, user_name TEXT, date TEXT)`. -/
structure Reservation where
  id : Nat
  resource_id : Nat
  user_name : String
  date : String
  deriving DecidableEq, Repr

/-- The database state: both tables plus the AUTOINCREMENT counter that
SQLite keeps for `reservations.id`. -/
structure DB where
  resources : List Resource
  reservations : List Reservation
  next_reservation_id : Nat
  deriving DecidableEq, Repr

/-- The freshly initialised database (`_initialize_db` on a new file):
both tables empty, AUTOINCREMENT counter at 1. -/
def emptyDB : DB := { resources := [], reservations := [], next_reservation_id := 1 }

/-- `not user_name.strip()` in Python: the string strips to empty, i.e.
every character is whitespace. -/
def isBlank (s : String) : Bool := s.data.all (fun c => c.isWhitespace)

/-- `_generate_resource_id`: `SELECT MAX(id) FROM resources`, returning 1
when the table is empty and max+1 otherwise. -/
def generate_resource_id (db : DB) : Nat :=
  match (db.resources.map Resource.id).max? with
  | none => 1
  | some m => m + 1

/-- `add_resource(name, description)`: INSERT a row with the generated id;
the `available` column takes its schema default 1. -/
def add_resource (db : DB) (name description : String) : DB :=
  { db with resources := db.resources ++
      [{ id := generate_resource_id db, name := name, description := description,
         available := 1 }] }

/-- `update_resource(resource_id, name, description, available)`: build the
list of SET clauses from the truthy fields (`if name:`, `if description:`,
`if available is not None:`); executing the UPDATE with an empty SET clause
is a SQL syntax error (`sqlite3.OperationalError`), modelled as `Except.error`. -/
def update_resource (db : DB) (resource_id : Nat) (name description : String)
    (available : Option Nat) : Except String DB :=
  let updates : List (Resource → Resource) :=
    (if name ≠ "" then [fun r => { r with name := name }] else []) ++
    (if description ≠ "" then [fun r => { r with description := description }] else []) ++
    (match available with
     | some a => [fun r => { r with available := a }]
     | none => [])
  if updates.isEmpty then
    Except.error "near WHERE: syntax error"
  else
    Except.ok { db with resources := db.resources.map fun r =>
      if r.id = resource_id then updates.foldl (fun acc f => f acc) r else r }

/-- `UPDATE resources SET id = new WHERE id = old`. -/
def updIdResources (new old : Nat) (rs : List Resource) : List Resource :=
  rs.map fun r => if r.id = old then { r with id := new } else r

/-- `UPDATE reservations SET resource_id = new WHERE resource_id = old`. -/
def updIdReservations (new old : Nat) (vs : List Reservation) : List Reservation :=
  vs.map fun v => if v.resource_id = old then { v with resource_id := new } else v

/-- One iteration of the `_reassign_ids` loop, on a pair
`(index, old_id)` produced by `enumerate(resources, start=1)`. -/
def reassignStep (db : DB) (p : Nat × Nat) : DB :=
  { db with resources := updIdResources p.1 p.2 db.resources,
            reservations := updIdReservations p.1 p.2 db.reservations }

/-- `SELECT id FROM resources ORDER BY id`. -/
def sortedIds (rs : List Resource) : List Nat :=
  List.insertionSort (· ≤ ·) (rs.map Resource.id)

/-- `_reassign_ids`: walk the ids in ascending order and renumber them
1, 2, 3, ..., updating reservation foreign keys in the same loop. -/
def reassign_ids (db : DB) : DB :=
  (List.enumFrom 1 (sortedIds db.resources)).foldl reassignStep db

/-- `delete_resource(resource_id)`: delete the reservations of the
resource, delete the resource, then `_reassign_ids`. -/
def delete_resource (db : DB) (resource_id : Nat) : DB :=
  let db1 := { db with reservations := db.reservations.filter fun v => v.resource_id ≠ resource_id }
  let db2 := { db1 with resources := db1.resources.filter fun r => r.id ≠ resource_id }
  reassign_ids db2

/-- `INSERT INTO reservations (resource_id, user_name, date) VALUES (?, ?, ?)`:
the row takes the next AUTOINCREMENT id. -/
def insert_reservation (db : DB) (resource_id : Nat) (user_name date : String) : DB :=
  { db with
    reservations := db.reservations ++
      [{ id := db.next_reservation_id, resource_id := resource_id,
         user_name := user_name, date := date }],
    next_reservation_id := db.next_reservation_id + 1 }

/-- `UPDATE resources SET available = 0 WHERE id = ?`. -/
def set_unavailable (db : DB) (resource_id : Nat) : DB :=
  { db with resources := db.resources.map fun r =>
      if r.id = resource_id then { r with available := 0 } else r }

/-- The body of `create_reservation` inside the `try`: the three guard
checks (blank user name, missing resource via
`SELECT id, available FROM resources WHERE id = ?` + `fetchone`,
`available == 0`), then the INSERT and the UPDATE.  `dbFail = true` is the
oracle for a `sqlite3.Error` raised by the database during the write. -/
def create_reservation_body (dbFail : Bool) (db : DB) (resource_id : Nat)
    (user_name date : String) : Except String (DB × Bool) :=
  if isBlank user_name then Except.ok (db, false)
  else
    match db.resources.find? (fun r => r.id == resource_id) with
    | none => Except.ok (db, false)
    | some r =>
      if r.available = 0 then Except.ok (db, false)
      else if dbFail then Except.error "database error during reservation"
      else Except.ok
        (set_unavailable (insert_reservation db resource_id user_name date) resource_id, true)

/-- `create_reservation` with its `try ... except sqlite3.Error: return False`
wrapper: a caught database error yields `false` instead of propagating. -/
def create_reservation_full (dbFail : Bool) (db : DB) (resource_id : Nat)
    (user_name date : String) : DB × Bool :=
  match create_reservation_body dbFail db resource_id user_name date with
  | Except.ok res => res
  | Except.error _ => (db, false)

/-- `create_reservation(resource_id, user_name, date)` when the database
layer raises no error. -/
def create_reservation (db : DB) (resource_id : Nat) (user_name date : String) : DB × Bool :=
  create_reservation_full false db resource_id user_name date

/-- `remove_reservation_ui(reservation_id, resource_id)`:
`DELETE FROM reservations WHERE id = ?` then
`update_resource(resource_id, available=1)`.  (`update_resource` with
`available=1` always has a non-empty SET clause, so the error branch is
dead; it is kept to mirror the unhandled exception leaving the deletion
committed.) -/
def remove_reservation (db : DB) (reservation_id resource_id : Nat) : DB :=
  let db1 := { db with reservations := db.reservations.filter fun v => v.id ≠ reservation_id }
  match update_resource db1 resource_id "" "" (some 1) with
  | Except.ok db2 => db2
  | Except.error _ => db1

/-- The Store operations reachable from the GUI that mutate the database
(`update` is only ever invoked without a new id: `update_resource` never
touches the id column). -/
inductive Op where
  | add (name description : String)
  | del (resource_id : Nat)
  | reserve (resource_id : Nat) (user_name date : String)
  | update (resource_id : Nat) (name description : String) (available : Option Nat)

/-- Apply one operation; an operation whose SQL raises (only possible for
`update_resource` with no fields) leaves the state unchanged, since the
exception escapes before any row is written. -/
def applyOp (db : DB) : Op → DB
  | Op.add n d => add_resource db n d
  | Op.del rid => delete_resource db rid
  | Op.reserve rid u dt => (create_reservation db rid u dt).1
  | Op.update rid n d a =>
      match update_resource db rid n d a with
      | Except.ok db2 => db2
      | Except.error _ => db

/-- Run a sequence of operations from the fresh database. -/
def runOps (ops : List Op) : DB := ops.foldl applyOp emptyDB

/-- Well-formedness guaranteed by the schema and maintained by the app:
resource ids are distinct (PRIMARY KEY) and positive, reservation ids are
distinct (PRIMARY KEY). -/
def WF (db : DB) : Prop :=
  (db.resources.map Resource.id).Nodup ∧
  (∀ r ∈ db.resources, 1 ≤ r.id) ∧
  (db.reservations.map Reservation.id).Nodup

/-- The simultaneous relabelling that the sequential `_reassign_ids` loop
implements: an id occurring in the sorted list `l` becomes `k + 1 +` its
position, any other value is untouched (`k` is the number of already
renumbered ids). -/
def relabelFrom (k : Nat) (l : List Nat) (x : Nat) : Nat :=
  if x ∈ l then k + 1 + List.indexOf x l else x

-- Sanity checks on concrete states.
example : generate_resource_id emptyDB = 1 := by decide
example :
    (add_resource emptyDB "Room A" "desc").resources =
      [{ id := 1, name := "Room A", description := "desc", available := 1 }] := by decide
example : isBlank "   " = true := by decide
example : isBlank " x " = false := by decide
example :
    (create_reservation (add_resource emptyDB "Room A" "desc") 1 "Alice" "2024-01-01").2 = true := by
  decide
example :
    delete_resource
      { resources := [{ id := 1, name := "a", description := "", available := 1 },
                      { id := 2, name := "b", description := "", available := 0 },
                      { id := 3, name := "c", description := "", available := 1 }],
        reservations := [{ id := 1, resource_id := 2, user_name := "u", date := "d" },
                         { id := 2, resource_id := 3, user_name := "v", date := "e" }],
        next_reservation_id := 3 } 2 =
      { resources := [{ id := 1, name := "a", description := "", available := 1 },
                      { id := 2, name := "c", description := "", available := 1 }],
        reservations := [{ id := 2, resource_id := 2, user_name := "v", date := "e" }],
        next_reservation_id := 3 } := by decide

/-! ## Helper lemmas -/

lemma map_setId_self (rs : List Resource) :
    rs.map (fun r => { r with id := r.id }) = rs := by
  have h : (fun r : Resource => { r with id := r.id }) = id := funext fun r => rfl
  rw [h, List.map_id]

lemma map_setRid_self (vs : List Reservation) :
    vs.map (fun v => { v with resource_id := v.resource_id }) = vs := by
  have h : (fun v : Reservation => { v with resource_id := v.resource_id }) = id :=
    funext fun v => rfl
  rw [h, List.map_id]

/-- `fetchone` on `SELECT ... WHERE id = ?`: when resource ids are distinct,
the first matching row is the unique row of that id. -/
lemma find?_eq_of_mem {rs : List Resource} (hnd : (rs.map Resource.id).Nodup)
    {r : Resource} (hr : r ∈ rs) {rid : Nat} (hid : r.id = rid) :
    rs.find? (fun q => q.id == rid) = some r := by
  induction rs with
  | nil => cases hr
  | cons a t ih =>
    rw [List.map_cons, List.nodup_cons] at hnd
    rcases List.mem_cons.mp hr with rfl | hmem
    · rw [List.find?_cons_of_pos _ (by simp [hid])]
    · have ha : a.id ≠ rid := by
        intro h
        exact hnd.1 (h ▸ hid ▸ List.mem_map_of_mem Resource.id hmem)
      rw [List.find?_cons_of_neg _ (by simp [ha])]
      exact ih hnd.2 hmem

/-- `SELECT MAX(id)` over the contiguous table `1..n+1`. -/
lemma max?_range' (n : Nat) : (List.range' 1 (n + 1)).max? = some (n + 1) := by
  rw [List.max?_eq_some_iff (fun a => le_refl a) (fun a b => max_choice a b)
    (fun a b c => max_le_iff)]
  constructor
  · exact List.mem_range'.mpr ⟨n, by omega, by omega⟩
  · intro b hb
    obtain ⟨i, hi, rfl⟩ := List.mem_range'.mp hb
    omega

/-- `_generate_resource_id` in spec terms: 1 on the empty table, max+1 otherwise. -/
lemma generate_resource_id_eq (db : DB) :
    generate_resource_id db =
      if db.resources = [] then 1 else ((db.resources.map Resource.id).max?.getD 0) + 1 := by
  unfold generate_resource_id
  match h : (db.resources.map Resource.id).max? with
  | none =>
      have : db.resources = [] := by
        have h2 := List.max?_eq_none_iff.mp h
        exact List.map_eq_nil_iff.mp h2
      rw [if_pos this]
  | some m =>
      have hne : db.resources ≠ [] := by
        intro hnil
        rw [hnil] at h
        exact Option.noConfusion h
      rw [if_neg hne]
      rfl

/-! ## C4 -/

/-- C4: `add_resource` inserts one row whose id is the maximum existing id
plus 1 (1 on the empty table) and whose `available` flag defaults to 1;
the reservations table is untouched. -/
theorem add_resource_assigns_next_id (db : DB) (name description : String) :
    (add_resource db name description).resources =
      db.resources ++
        [{ id := if db.resources = [] then 1
                 else ((db.resources.map Resource.id).max?.getD 0) + 1,
           name := name, description := description, available := 1 }] ∧
    (add_resource db name description).reservations = db.reservations := by
  constructor
  · simp only [add_resource]
    rw [generate_resource_id_eq]
  · rfl

/-! ## C9 -/

/-- C9: `update_resource` with no field supplied builds an UPDATE with an
empty SET clause, which is malformed SQL: the call raises
(`sqlite3.OperationalError`) instead of performing any update. -/
theorem update_resource_no_fields_errors (db : DB) (resource_id : Nat) :
    update_resource db resource_id "" "" none = Except.error "near WHERE: syntax error" := by
  rfl

/-! ## C2 -/

/-- C2: `create_reservation` returns `false` and leaves the database
unchanged when the user name is blank, the resource id does not exist, or
the resource is marked unavailable. -/
theorem create_reservation_failure_cases (db : DB) (resource_id : Nat)
    (user_name date : String) (hwf : WF db)
    (h : isBlank user_name = true ∨
         (∀ r ∈ db.resources, r.id ≠ resource_id) ∨
         (∃ r ∈ db.resources, r.id = resource_id ∧ r.available = 0)) :
    create_reservation db resource_id user_name date = (db, false) := by
  unfold create_reservation create_reservation_full create_reservation_body
  by_cases hb : isBlank user_name
  · simp [hb]
  · rcases h with h | h | h
    · exact absurd h hb
    · have hfind : db.resources.find? (fun q => q.id == resource_id) = none :=
        List.find?_eq_none.mpr (fun x hx => by simpa using h x hx)
      simp [hb, hfind]
    · obtain ⟨r, hr, hid, hav⟩ := h
      have hfind : db.resources.find? (fun q => q.id == resource_id) = some r :=
        find?_eq_of_mem hwf.1 hr hid
      simp [hb, hfind, hav]

/-! ## C6 -/

/-- C6: the `try ... except sqlite3.Error` wrapper makes
`create_reservation` total (the model returns a plain `DB × Bool`, no
error propagates out of `create_reservation_full`), and each failure —
blank user name, missing resource, unavailable resource, or a database
error raised during the write (`dbFail = true`) — yields `false`. -/
theorem create_reservation_never_raises (dbFail : Bool) (db : DB) (resource_id : Nat)
    (user_name date : String) (hwf : WF db)
    (h : isBlank user_name = true ∨
         (∀ r ∈ db.resources, r.id ≠ resource_id) ∨
         (∃ r ∈ db.resources, r.id = resource_id ∧ r.available = 0) ∨
         dbFail = true) :
    (create_reservation_full dbFail db resource_id user_name date).2 = false := by
  unfold create_reservation_full create_reservation_body
  by_cases hb : isBlank user_name
  · simp [hb]
  · rcases h with h | h | h | h
    · exact absurd h hb
    · have hfind : db.resources.find? (fun q => q.id == resource_id) = none :=
        List.find?_eq_none.mpr (fun x hx => by simpa using h x hx)
      simp [hb, hfind]
    · obtain ⟨r, hr, hid, hav⟩ := h
      have hfind := find?_eq_of_mem hwf.1 hr hid
      simp [hb, hfind, hav]
    · subst h
      cases hfind : db.resources.find? (fun q => q.id == resource_id) with
      | none => simp [hb, hfind]
      | some r =>
        by_cases hav : r.available = 0
        · simp [hb, hfind, hav]
        · simp [hb, hfind, hav]

/-! ## C3 -/

/-- C3: on an available resource and a non-blank user name,
`create_reservation` returns `true`, appends exactly one reservation row
(with the next AUTOINCREMENT id) and flips the resource's `available`
flag to 0; any second reservation attempt on the same resource in the
resulting state returns `false` and changes nothing.  The spec's concrete
scenario (add "Room A" → id 1; Alice reserves → true, resource 1
unavailable; Bob → false) is included. -/
theorem create_reservation_succeeds_once (db : DB) (hwf : WF db) (r : Resource)
    (hr : r ∈ db.resources) (hav : r.available = 1) (user_name date : String)
    (hu : isBlank user_name = false) :
    (create_reservation db r.id user_name date).2 = true ∧
    (create_reservation db r.id user_name date).1.reservations =
      db.reservations ++ [{ id := db.next_reservation_id, resource_id := r.id,
                            user_name := user_name, date := date }] ∧
    (create_reservation db r.id user_name date).1.resources =
      db.resources.map (fun q => if q.id = r.id then { q with available := 0 } else q) ∧
    (∀ user2 date2 : String,
      create_reservation (create_reservation db r.id user_name date).1 r.id user2 date2 =
        ((create_reservation db r.id user_name date).1, false)) ∧
    (add_resource emptyDB "Room A" "desc").resources.map Resource.id = [1] ∧
    (create_reservation (add_resource emptyDB "Room A" "desc") 1 "Alice" "2024-01-01").2 = true ∧
    (create_reservation (add_resource emptyDB "Room A" "desc") 1 "Alice"
      "2024-01-01").1.resources.map (fun q => (q.id, q.available)) = [(1, 0)] ∧
    create_reservation
      (create_reservation (add_resource emptyDB "Room A" "desc") 1 "Alice" "2024-01-01").1
      1 "Bob" "2024-01-02" =
      ((create_reservation (add_resource emptyDB "Room A" "desc") 1 "Alice" "2024-01-01").1,
       false) := by
  have hfind : db.resources.find? (fun q => q.id == r.id) = some r :=
    find?_eq_of_mem hwf.1 hr rfl
  have hstep : create_reservation db r.id user_name date =
      (set_unavailable (insert_reservation db r.id user_name date) r.id, true) := by
    unfold create_reservation create_reservation_full create_reservation_body
    simp [hu, hfind, hav]
  refine ⟨by rw [hstep], by rw [hstep]; rfl, by rw [hstep]; rfl, ?_,
    by decide, by decide, by decide, by decide⟩
  intro user2 date2
  rw [hstep]
  have hfind2 :
      (set_unavailable (insert_reservation db r.id user_name date) r.id).resources.find?
        (fun q => q.id == r.id) = some { r with available := 0 } := by
    show (db.resources.map fun q =>
      if q.id = r.id then { q with available := 0 } else q).find? (fun q => q.id == r.id) = _
    rw [List.find?_map]
    have hpf : ((fun q : Resource => q.id == r.id) ∘ fun q =>
        if q.id = r.id then { q with available := 0 } else q) = fun q => q.id == r.id := by
      funext q
      by_cases hq : q.id = r.id <;> simp [hq]
    rw [hpf, hfind]
    simp
  unfold create_reservation create_reservation_full create_reservation_body
  by_cases hb2 : isBlank user2
  · simp [hb2]
  · simp [hb2, hfind2]

/-! ## C7 and C9 shared characterisation -/

/-- When at least one field is supplied, `update_resource` succeeds and
rewrites exactly the supplied columns of the matching row. -/
lemma update_resource_ok (db : DB) (resource_id : Nat) (name description : String)
    (available : Option Nat) (h : ¬(name = "" ∧ description = "" ∧ available = none)) :
    update_resource db resource_id name description available =
      Except.ok { db with resources := db.resources.map fun r =>
        if r.id = resource_id then
          { r with name := if name = "" then r.name else name,
                   description := if description = "" then r.description else description,
                   available := available.getD r.available }
        else r } := by
  unfold update_resource
  by_cases hn : name = "" <;> by_cases hd : description = "" <;> cases available <;>
    simp_all

/-! ## C7 -/

/-- C7 (amended): provided at least one field is supplied,
`update_resource` updates exactly the supplied fields of the row with the
given id — an empty/None field keeps its previous value — and every other
row is unchanged.  (With no field supplied the call raises instead, see
the counterexample.) -/
theorem update_resource_partial_update (db : DB) (resource_id : Nat)
    (name description : String) (available : Option Nat)
    (h : ¬(name = "" ∧ description = "" ∧ available = none)) :
    update_resource db resource_id name description available =
      Except.ok { db with resources := db.resources.map fun r =>
        if r.id = resource_id then
          { r with name := if name = "" then r.name else name,
                   description := if description = "" then r.description else description,
                   available := available.getD r.available }
        else r } :=
  update_resource_ok db resource_id name description available h

/-- C7 counterexample: with every field empty/None the claim would require
a completed no-op update, but `update_resource` raises on its malformed
SQL instead of returning the unchanged database. -/
theorem update_resource_all_empty_raises :
    update_resource emptyDB 1 "" "" none = Except.error "near WHERE: syntax error" ∧
    update_resource emptyDB 1 "" "" none ≠ Except.ok emptyDB :=
  ⟨rfl, fun h => Except.noConfusion h⟩

/-! ## C8 -/

/-- With distinct reservation ids, deleting by id removes exactly the one
row carrying that id. -/
lemma filter_ne_eq_erase {l : List Reservation} (hnd : (l.map Reservation.id).Nodup)
    {v : Reservation} (hv : v ∈ l) :
    l.filter (fun w => w.id ≠ v.id) = l.erase v := by
  induction l with
  | nil => cases hv
  | cons a t ih =>
    rw [List.map_cons, List.nodup_cons] at hnd
    rcases List.mem_cons.mp hv with rfl | hmem
    · rw [List.erase_cons_head, List.filter_cons_of_neg (by simp)]
      exact List.filter_eq_self.mpr (fun w hw => by
        simp only [ne_eq, decide_eq_true_eq]
        intro hEq
        exact hnd.1 (hEq ▸ List.mem_map_of_mem Reservation.id hw))
    · have hne : a.id ≠ v.id := by
        intro hEq
        exact hnd.1 (hEq ▸ List.mem_map_of_mem Reservation.id hmem)
      have hnev : ¬(a == v) := by
        simp only [beq_iff_eq]
        intro hEq
        exact hne (hEq ▸ rfl)
      rw [List.erase_cons_tail (by simpa using hnev),
        List.filter_cons_of_pos (by simpa using hne), ih hnd.2 hmem]

/-- C8: the admin release action (`remove_reservation_ui`) deletes exactly
the given reservation row and flips the referenced resource's `available`
flag back to 1, leaving every other row (and every other column of the
resource) unchanged. -/
theorem remove_reservation_releases (db : DB) (hwf : WF db) (v : Reservation)
    (hv : v ∈ db.reservations) :
    (remove_reservation db v.id v.resource_id).reservations = db.reservations.erase v ∧
    (remove_reservation db v.id v.resource_id).resources =
      db.resources.map (fun r => if r.id = v.resource_id then { r with available := 1 } else r) ∧
    (remove_reservation db v.id v.resource_id).next_reservation_id =
      db.next_reservation_id := by
  have hu := update_resource_ok
    { db with reservations := db.reservations.filter fun w => w.id ≠ v.id }
    v.resource_id "" "" (some 1) (by simp)
  simp only [remove_reservation, hu]
  refine ⟨?_, ?_, trivial⟩
  · exact filter_ne_eq_erase hwf.2.2 hv
  · simp

/-! ## C10 -/

/-- Every iteration of the `_reassign_ids` loop touches only the id column
of `resources` and the resource_id column of `reservations`. -/
lemma foldl_reassign_fields (ps : List (Nat × Nat)) (db : DB) :
    (ps.foldl reassignStep db).resources.map (fun r => (r.name, r.description, r.available)) =
      db.resources.map (fun r => (r.name, r.description, r.available)) ∧
    (ps.foldl reassignStep db).reservations.map (fun v => (v.id, v.user_name, v.date)) =
      db.reservations.map (fun v => (v.id, v.user_name, v.date)) ∧
    (ps.foldl reassignStep db).next_reservation_id = db.next_reservation_id := by
  induction ps generalizing db with
  | nil => exact ⟨rfl, rfl, rfl⟩
  | cons p ps ih =>
    rw [List.foldl_cons]
    refine ⟨?_, ?_, ?_⟩
    · rw [(ih (reassignStep db p)).1]
      show (updIdResources p.1 p.2 db.resources).map _ = _
      unfold updIdResources
      rw [List.map_map]
      refine List.map_congr_left (fun r hr => ?_)
      by_cases hc : r.id = p.2 <;> simp [hc]
    · rw [(ih (reassignStep db p)).2.1]
      show (updIdReservations p.1 p.2 db.reservations).map _ = _
      unfold updIdReservations
      rw [List.map_map]
      refine List.map_congr_left (fun w hw => ?_)
      by_cases hc : w.resource_id = p.2 <;> simp [hc]
    · rw [(ih (reassignStep db p)).2.2]
      rfl

/-- C10: `delete_resource` preserves, for every surviving resource, its
name, description and available flag, and for every surviving reservation
its id, user_name and date: the renumbering pass changes only the id
column of `resources` and the resource_id column of `reservations`. -/
theorem delete_resource_only_renumbers (db : DB) (rid : Nat) :
    (delete_resource db rid).resources.map (fun r => (r.name, r.description, r.available)) =
      (db.resources.filter fun r => r.id ≠ rid).map
        (fun r => (r.name, r.description, r.available)) ∧
    (delete_resource db rid).reservations.map (fun v => (v.id, v.user_name, v.date)) =
      (db.reservations.filter fun v => v.resource_id ≠ rid).map
        (fun v => (v.id, v.user_name, v.date)) ∧
    (delete_resource db rid).next_reservation_id = db.next_reservation_id := by
  unfold delete_resource reassign_ids
  exact foldl_reassign_fields _ _

/-! ## Renumbering machinery (C1, C5) -/

/-- One loop iteration agrees with the simultaneous relabelling: renaming
the head id `a` to `k + 1` and then relabelling along the tail is the
relabelling along `a :: t`.  Needs `k < a` and `a` below the tail, which
hold because the loop walks the ids in ascending order. -/
lemma relabelFrom_step {a k : Nat} {t : List Nat} (ha : k < a) (ht : ∀ y ∈ t, a < y)
    (x : Nat) :
    relabelFrom (k + 1) t (if x = a then k + 1 else x) = relabelFrom k (a :: t) x := by
  by_cases hx : x = a
  · subst hx
    have h1 : k + 1 ∉ t := fun hmem => absurd (ht _ hmem) (by omega)
    simp [relabelFrom, h1]
  · rw [if_neg hx]
    by_cases hxt : x ∈ t
    · have hmem : x ∈ a :: t := List.mem_cons_of_mem _ hxt
      rw [relabelFrom, if_pos hxt, relabelFrom, if_pos hmem,
        List.indexOf_cons_ne _ (Ne.symm hx)]
      omega
    · have hmem : x ∉ a :: t := by
        intro hc
        rcases List.mem_cons.mp hc with h | h
        · exact hx h
        · exact hxt h
      rw [relabelFrom, if_neg hxt, relabelFrom, if_neg hmem]

lemma resource_row_step {a k : Nat} {t : List Nat} (ha : k < a) (ht : ∀ y ∈ t, a < y)
    (r : Resource) :
    (fun s : Resource => { s with id := relabelFrom (k + 1) t s.id })
        (if r.id = a then { r with id := k + 1 } else r) =
      { r with id := relabelFrom k (a :: t) r.id } := by
  by_cases hc : r.id = a
  · rw [if_pos hc]
    show ({ r with id := relabelFrom (k + 1) t (k + 1) } : Resource) = _
    rw [← relabelFrom_step ha ht r.id, if_pos hc]
  · rw [if_neg hc]
    show ({ r with id := relabelFrom (k + 1) t r.id } : Resource) = _
    rw [← relabelFrom_step ha ht r.id, if_neg hc]

lemma reservation_row_step {a k : Nat} {t : List Nat} (ha : k < a) (ht : ∀ y ∈ t, a < y)
    (v : Reservation) :
    (fun w : Reservation => { w with resource_id := relabelFrom (k + 1) t w.resource_id })
        (if v.resource_id = a then { v with resource_id := k + 1 } else v) =
      { v with resource_id := relabelFrom k (a :: t) v.resource_id } := by
  by_cases hc : v.resource_id = a
  · rw [if_pos hc]
    show ({ v with resource_id := relabelFrom (k + 1) t (k + 1) } : Reservation) = _
    rw [← relabelFrom_step ha ht v.resource_id, if_pos hc]
  · rw [if_neg hc]
    show ({ v with resource_id := relabelFrom (k + 1) t v.resource_id } : Reservation) = _
    rw [← relabelFrom_step ha ht v.resource_id, if_neg hc]

/-- The `_reassign_ids` loop over the sorted remaining ids `l` (strictly
ascending, all above the count `k` of already renumbered ids) performs the
simultaneous relabelling `relabelFrom k l` on the id column of `resources`
and the resource_id column of `reservations`. -/
lemma foldl_reassignStep_eq (l : List Nat) (k : Nat) (db : DB)
    (hs : List.Pairwise (· < ·) l) (hk : ∀ x ∈ l, k < x) :
    (List.enumFrom (k + 1) l).foldl reassignStep db =
      { resources := db.resources.map fun r => { r with id := relabelFrom k l r.id },
        reservations :=
          db.reservations.map fun v => { v with resource_id := relabelFrom k l v.resource_id },
        next_reservation_id := db.next_reservation_id } := by
  induction l generalizing k db with
  | nil =>
    show db = _
    have h1 : (fun r : Resource => { r with id := relabelFrom k [] r.id }) =
        (fun r : Resource => { r with id := r.id }) := by
      funext r
      rw [relabelFrom, if_neg (List.not_mem_nil r.id)]
    have h2 : (fun v : Reservation => { v with resource_id := relabelFrom k [] v.resource_id }) =
        (fun v : Reservation => { v with resource_id := v.resource_id }) := by
      funext v
      rw [relabelFrom, if_neg (List.not_mem_nil v.resource_id)]
    rw [h1, h2, map_setId_self, map_setRid_self]
  | cons a t ih =>
    have ha : k < a := hk a (List.mem_cons_self a t)
    have hpc := List.pairwise_cons.mp hs
    have hk2 : ∀ x ∈ t, k + 1 < x := fun x hx => by
      have := hpc.1 x hx
      omega
    rw [show List.enumFrom (k + 1) (a :: t) = (k + 1, a) :: List.enumFrom (k + 1 + 1) t from rfl,
      List.foldl_cons, ih (k + 1) (reassignStep db (k + 1, a)) hpc.2 hk2]
    congr 1
    · show (updIdResources (k + 1) a db.resources).map _ = _
      unfold updIdResources
      rw [List.map_map]
      exact List.map_congr_left (fun r _ => resource_row_step ha hpc.1 r)
    · show (updIdReservations (k + 1) a db.reservations).map _ = _
      unfold updIdReservations
      rw [List.map_map]
      exact List.map_congr_left (fun v _ => reservation_row_step ha hpc.1 v)

/-- `_reassign_ids` on a well-formed table: every resource id becomes its
1-based rank in the ascending order of ids, reservation foreign keys move
in lockstep, everything else is untouched. -/
lemma reassign_ids_eq (db : DB) (hnd : (db.resources.map Resource.id).Nodup)
    (hpos : ∀ r ∈ db.resources, 1 ≤ r.id) :
    reassign_ids db =
      { resources := db.resources.map fun r =>
          { r with id := relabelFrom 0 (sortedIds db.resources) r.id },
        reservations := db.reservations.map fun v =>
          { v with resource_id := relabelFrom 0 (sortedIds db.resources) v.resource_id },
        next_reservation_id := db.next_reservation_id } := by
  have hperm : (sortedIds db.resources).Perm (db.resources.map Resource.id) :=
    List.perm_insertionSort _ _
  have hnd2 : (sortedIds db.resources).Nodup := hperm.symm.nodup hnd
  have hsorted : List.Sorted (· ≤ ·) (sortedIds db.resources) :=
    List.sorted_insertionSort _ _
  have hpw : List.Pairwise (· < ·) (sortedIds db.resources) :=
    (hsorted.and hnd2).imp (fun h => lt_of_le_of_ne h.1 h.2)
  have hk : ∀ x ∈ sortedIds db.resources, 0 < x := by
    intro x hx
    obtain ⟨r, hr, rfl⟩ := List.mem_map.mp (hperm.mem_iff.mp hx)
    exact hpos r hr
  exact foldl_reassignStep_eq _ 0 db hpw hk

/-- Relabelling the members of a duplicate-free list by their own 1-based
rank yields exactly 1..n. -/
lemma map_relabel_self (l : List Nat) (hnd : l.Nodup) :
    l.map (relabelFrom 0 l) = List.range' 1 l.length := by
  apply List.ext_getElem
  · simp
  · intro i h1 h2
    have hi : i < l.length := by simpa using h1
    rw [List.getElem_map]
    have hmem : l[i] ∈ l := List.getElem_mem hi
    rw [relabelFrom, if_pos hmem, List.indexOf_getElem hnd i hi, List.getElem_range']
    omega

/-- In a strictly ascending list, position respects order. -/
lemma indexOf_lt_of_pairwise {l : List Nat} (h : List.Pairwise (· < ·) l)
    {x y : Nat} (hx : x ∈ l) (hy : y ∈ l) (hxy : x < y) :
    List.indexOf x l < List.indexOf y l := by
  induction l with
  | nil => cases hx
  | cons a t ih =>
    have hpc := List.pairwise_cons.mp h
    rcases List.mem_cons.mp hx with rfl | hxt
    · rcases List.mem_cons.mp hy with rfl | hyt
      · omega
      · rw [List.indexOf_cons_self, List.indexOf_cons_ne _ (by omega : x ≠ y)]
        omega
    · have hax : a < x := hpc.1 x hxt
      rcases List.mem_cons.mp hy with rfl | hyt
      · omega
      · have hay : a < y := hpc.1 y hyt
        rw [List.indexOf_cons_ne _ (by omega : a ≠ x), List.indexOf_cons_ne _ (by omega : a ≠ y)]
        have := ih hpc.2 hxt hyt
        omega

/-- Deleting a present id removes exactly one `resources` row. -/
lemma length_filter_ne {rs : List Resource} (hnd : (rs.map Resource.id).Nodup) {rid : Nat}
    (hmem : rid ∈ rs.map Resource.id) :
    (rs.filter fun r => r.id ≠ rid).length + 1 = rs.length := by
  induction rs with
  | nil => cases hmem
  | cons a t ih =>
    rw [List.map_cons, List.nodup_cons] at hnd
    by_cases ha : a.id = rid
    · have hall : ∀ r ∈ t, r.id ≠ rid := by
        intro r hr hEq
        exact hnd.1 (ha ▸ hEq ▸ List.mem_map_of_mem Resource.id hr)
      rw [List.filter_cons_of_neg (by simp [ha]),
        List.filter_eq_self.mpr (fun r hr => by simpa using hall r hr)]
      simp
    · have hmem2 : rid ∈ t.map Resource.id := by
        rcases List.mem_cons.mp hmem with h | h
        · exact absurd h.symm ha
        · exact h
      rw [List.filter_cons_of_pos (by simp [ha])]
      have := ih hnd.2 hmem2
      simp only [List.length_cons]
      omega

lemma sortedIds_perm (rs : List Resource) : (sortedIds rs).Perm (rs.map Resource.id) :=
  List.perm_insertionSort _ _

lemma sortedIds_pairwise {rs : List Resource} (hnd : (rs.map Resource.id).Nodup) :
    List.Pairwise (· < ·) (sortedIds rs) :=
  ((List.sorted_insertionSort _ _).and ((sortedIds_perm rs).symm.nodup hnd)).imp
    (fun h => lt_of_le_of_ne h.1 h.2)

/-- The `resources` rows surviving `delete_resource db rid`. -/
def survivors (db : DB) (rid : Nat) : List Resource :=
  db.resources.filter fun r => r.id ≠ rid

/-- The id a surviving value ends up with after the renumbering pass of
`delete_resource db rid`: its 1-based rank among the surviving ids
(values not among the surviving ids are untouched). -/
def newId (db : DB) (rid : Nat) (x : Nat) : Nat :=
  relabelFrom 0 (sortedIds (survivors db rid)) x

/-! ## C1 -/

/-- C1: `delete_resource db rid` (for a present id `rid` in a well-formed
state) removes every reservation of `rid`, removes exactly the one
resource row with id `rid`, and renumbers the surviving resources with
`newId` — whose image is exactly the contiguous range 1..n and which is
strictly monotone on the surviving ids (same relative order) — updating
each surviving reservation's foreign key by the very same `newId` map
(lockstep: it keeps referencing the same resource row). -/
theorem delete_resource_renumbers (db : DB) (rid : Nat) (hwf : WF db)
    (hmem : rid ∈ db.resources.map Resource.id) :
    (survivors db rid).length + 1 = db.resources.length ∧
    (delete_resource db rid).resources =
      (survivors db rid).map (fun r => { r with id := newId db rid r.id }) ∧
    (delete_resource db rid).reservations =
      (db.reservations.filter fun v => v.resource_id ≠ rid).map
        (fun v => { v with resource_id := newId db rid v.resource_id }) ∧
    ((delete_resource db rid).resources.map Resource.id).Perm
      (List.range' 1 (survivors db rid).length) ∧
    (∀ x ∈ (survivors db rid).map Resource.id, ∀ y ∈ (survivors db rid).map Resource.id,
      x < y → newId db rid x < newId db rid y) := by
  have hndS : ((survivors db rid).map Resource.id).Nodup :=
    hwf.1.sublist (List.Sublist.map Resource.id (List.filter_sublist _))
  have hposS : ∀ r ∈ survivors db rid, 1 ≤ r.id := fun r hr =>
    hwf.2.1 r (List.mem_of_mem_filter hr)
  have hdel : delete_resource db rid =
      { resources := (survivors db rid).map (fun r => { r with id := newId db rid r.id }),
        reservations := (db.reservations.filter fun v => v.resource_id ≠ rid).map
          (fun v => { v with resource_id := newId db rid v.resource_id }),
        next_reservation_id := db.next_reservation_id } :=
    reassign_ids_eq
      { db with resources := db.resources.filter fun r => r.id ≠ rid,
                reservations := db.reservations.filter fun v => v.resource_id ≠ rid }
      hndS hposS
  have hpermL : (sortedIds (survivors db rid)).Perm ((survivors db rid).map Resource.id) :=
    sortedIds_perm _
  have hndL : (sortedIds (survivors db rid)).Nodup := hpermL.symm.nodup hndS
  have hpwL : List.Pairwise (· < ·) (sortedIds (survivors db rid)) := sortedIds_pairwise hndS
  refine ⟨length_filter_ne hwf.1 hmem, by rw [hdel], by rw [hdel], ?_, ?_⟩
  · rw [hdel]
    show (((survivors db rid).map fun r => { r with id := newId db rid r.id }).map
      Resource.id).Perm _
    rw [List.map_map]
    have hcomp : (Resource.id ∘ fun r : Resource => { r with id := newId db rid r.id }) =
        (fun r : Resource => newId db rid r.id) := rfl
    rw [hcomp]
    have hmm : ((survivors db rid).map fun r : Resource => newId db rid r.id) =
        ((survivors db rid).map Resource.id).map (newId db rid) := by
      rw [List.map_map]
      rfl
    rw [hmm]
    have hself : (sortedIds (survivors db rid)).map (newId db rid) =
        List.range' 1 (sortedIds (survivors db rid)).length :=
      map_relabel_self _ hndL
    have hlen : (sortedIds (survivors db rid)).length = (survivors db rid).length := by
      rw [hpermL.length_eq, List.length_map]
    have hfinal : (sortedIds (survivors db rid)).map (newId db rid) =
        List.range' 1 (survivors db rid).length := by
      rw [hself, hlen]
    rw [← hfinal]
    exact (hpermL.map _).symm
  · intro x hx y hy hxy
    have hxl : x ∈ sortedIds (survivors db rid) := hpermL.mem_iff.mpr hx
    have hyl : y ∈ sortedIds (survivors db rid) := hpermL.mem_iff.mpr hy
    show relabelFrom 0 (sortedIds (survivors db rid)) x <
      relabelFrom 0 (sortedIds (survivors db rid)) y
    rw [relabelFrom, if_pos hxl, relabelFrom, if_pos hyl]
    have := indexOf_lt_of_pairwise hpwL hxl hyl hxy
    omega

/-! ## C5: the contiguity invariant -/

/-- Resource ids are exactly the contiguous range 1..n, in table order. -/
def ContiguousIds (db : DB) : Prop :=
  db.resources.map Resource.id = List.range' 1 db.resources.length

lemma contig_of_ids_eq {db db2 : DB} (h : ContiguousIds db)
    (hids : db2.resources.map Resource.id = db.resources.map Resource.id) : ContiguousIds db2 := by
  have h2 : db.resources.map Resource.id = List.range' 1 db.resources.length := h
  show db2.resources.map Resource.id = List.range' 1 db2.resources.length
  have hlen : db2.resources.length = db.resources.length := by
    have e1 : (db2.resources.map Resource.id).length = (db.resources.map Resource.id).length := by
      rw [hids]
    simpa using e1
  rw [hids, h2, hlen]

lemma contig_generate_id (db : DB) (h : ContiguousIds db) :
    generate_resource_id db = db.resources.length + 1 := by
  have h2 : db.resources.map Resource.id = List.range' 1 db.resources.length := h
  rw [generate_resource_id_eq]
  by_cases hnil : db.resources = []
  · rw [if_pos hnil, hnil]
    rfl
  · rw [if_neg hnil]
    obtain ⟨m, hm⟩ : ∃ m, db.resources.length = m + 1 := by
      have : db.resources.length ≠ 0 := fun hh => hnil (List.length_eq_zero.mp hh)
      exact ⟨db.resources.length - 1, by omega⟩
    rw [h2, hm, max?_range' m]
    rfl

lemma contig_add (db : DB) (h : ContiguousIds db) (name description : String) :
    ContiguousIds (add_resource db name description) := by
  have h2 : db.resources.map Resource.id = List.range' 1 db.resources.length := h
  have hgen := contig_generate_id db h
  show (db.resources ++ [({ id := generate_resource_id db, name := name, description := description, available := 1 } : Resource)]).map Resource.id = List.range' 1 (db.resources ++ [({ id := generate_resource_id db, name := name, description := description, available := 1 } : Resource)]).length
  rw [List.map_append, List.length_append, h2, hgen]
  simp only [List.map_cons, List.map_nil, List.length_cons, List.length_nil]
  rw [show db.resources.length + (0 + 1) = db.resources.length + 1 from by omega,
    List.range'_concat]
  simp [Nat.add_comm]

lemma contig_pos (db : DB) (h : ContiguousIds db) : ∀ r ∈ db.resources, 1 ≤ r.id := by
  have h2 : db.resources.map Resource.id = List.range' 1 db.resources.length := h
  intro r hr
  have hm : r.id ∈ db.resources.map Resource.id := List.mem_map_of_mem _ hr
  rw [h2] at hm
  obtain ⟨i, hi, hEq⟩ := List.mem_range'.mp hm
  omega

lemma contig_delete (db : DB) (h : ContiguousIds db) (rid : Nat) : ContiguousIds (delete_resource db rid) := by
  have h2 : db.resources.map Resource.id = List.range' 1 db.resources.length := h
  have hnd : (db.resources.map Resource.id).Nodup := by
    rw [h2]
    exact List.nodup_range' _ _
  have hndS : ((db.resources.filter fun r => r.id ≠ rid).map Resource.id).Nodup :=
    hnd.sublist (List.Sublist.map Resource.id (List.filter_sublist _))
  have hposS : ∀ r ∈ db.resources.filter (fun r => r.id ≠ rid), 1 ≤ r.id := fun r hr =>
    contig_pos db h r (List.mem_of_mem_filter hr)
  have hexch : (db.resources.filter fun r => r.id ≠ rid).map Resource.id =
      (db.resources.map Resource.id).filter (fun x => decide (x ≠ rid)) := by
    rw [List.filter_map]
    rfl
  have hpwS : List.Pairwise (· < ·) ((db.resources.filter fun r => r.id ≠ rid).map Resource.id) := by
    rw [hexch, h2]
    exact (List.pairwise_lt_range' _ _).sublist (List.filter_sublist _)
  have hEqL : sortedIds (db.resources.filter fun r => r.id ≠ rid) =
      (db.resources.filter fun r => r.id ≠ rid).map Resource.id :=
    List.Sorted.insertionSort_eq (hpwS.imp le_of_lt)
  have hdel : delete_resource db rid =
      { resources := (db.resources.filter fun r => r.id ≠ rid).map (fun r =>
          { r with id :=
              relabelFrom 0 (sortedIds (db.resources.filter fun r => r.id ≠ rid)) r.id }),
        reservations := (db.reservations.filter fun v => v.resource_id ≠ rid).map (fun v =>
          { v with resource_id :=
              relabelFrom 0 (sortedIds (db.resources.filter fun r => r.id ≠ rid)) v.resource_id }),
        next_reservation_id := db.next_reservation_id } :=
    reassign_ids_eq
      { db with resources := db.resources.filter fun r => r.id ≠ rid,
                reservations := db.reservations.filter fun v => v.resource_id ≠ rid }
      hndS hposS
  rw [ContiguousIds, hdel]
  rw [List.map_map, List.length_map]
  have hcomp : (Resource.id ∘ fun r : Resource =>
      { r with id :=
          relabelFrom 0 (sortedIds (db.resources.filter fun r => r.id ≠ rid)) r.id }) =
      fun r : Resource =>
        relabelFrom 0 (sortedIds (db.resources.filter fun r => r.id ≠ rid)) r.id := rfl
  rw [hcomp]
  have hmm : ((db.resources.filter fun r => r.id ≠ rid).map fun r : Resource =>
      relabelFrom 0 (sortedIds (db.resources.filter fun r => r.id ≠ rid)) r.id) =
      ((db.resources.filter fun r => r.id ≠ rid).map Resource.id).map
        (relabelFrom 0 (sortedIds (db.resources.filter fun r => r.id ≠ rid))) := by
    rw [List.map_map]
    rfl
  rw [hmm, ← hEqL, map_relabel_self _ (hEqL ▸ hndS)]
  have hlen : (sortedIds (db.resources.filter fun r => r.id ≠ rid)).length =
      (db.resources.filter fun r => r.id ≠ rid).length := by
    rw [hEqL, List.length_map]
  rw [hlen]

lemma contig_reserve (db : DB) (h : ContiguousIds db) (rid : Nat) (u dt : String) :
    ContiguousIds (create_reservation db rid u dt).1 := by
  unfold create_reservation create_reservation_full create_reservation_body
  by_cases hb : isBlank u
  · simpa [hb] using h
  · cases hfind : db.resources.find? (fun r => r.id == rid) with
    | none => simpa [hb, hfind] using h
    | some r =>
      by_cases hav : r.available = 0
      · simpa [hb, hfind, hav] using h
      · simp only [hb, hfind, hav, Bool.false_eq_true, if_false, if_neg hav]
        refine contig_of_ids_eq h ?_
        show ((insert_reservation db rid u dt).resources.map fun q =>
          if q.id = rid then { q with available := 0 } else q).map Resource.id = _
        rw [List.map_map]
        refine List.map_congr_left (fun q _ => ?_)
        by_cases hq : q.id = rid <;> simp [hq]

lemma contig_update_arm (db : DB) (h : ContiguousIds db) (rid : Nat) (n d : String) (a : Option Nat) :
    ContiguousIds (applyOp db (Op.update rid n d a)) := by
  show ContiguousIds (match update_resource db rid n d a with
    | Except.ok db2 => db2
    | Except.error _ => db)
  by_cases hall : n = "" ∧ d = "" ∧ a = none
  · obtain ⟨e1, e2, e3⟩ := hall
    subst e1; subst e2; subst e3
    rw [show update_resource db rid "" "" none =
      Except.error "near WHERE: syntax error" from rfl]
    exact h
  · rw [update_resource_ok db rid n d a hall]
    refine contig_of_ids_eq h ?_
    show (db.resources.map fun r =>
      if r.id = rid then
        { r with name := if n = "" then r.name else n,
                 description := if d = "" then r.description else d,
                 available := a.getD r.available }
      else r).map Resource.id = _
    rw [List.map_map]
    refine List.map_congr_left (fun r _ => ?_)
    by_cases hr : r.id = rid <;> simp [hr]

lemma contig_applyOp (db : DB) (h : ContiguousIds db) (op : Op) : ContiguousIds (applyOp db op) := by
  cases op with
  | add n d => exact contig_add db h n d
  | del rid => exact contig_delete db h rid
  | reserve rid u dt => exact contig_reserve db h rid u dt
  | update rid n d a => exact contig_update_arm db h rid n d a

lemma contig_foldl (ops : List Op) (db : DB) (h : ContiguousIds db) : ContiguousIds (ops.foldl applyOp db) := by
  induction ops generalizing db with
  | nil => exact h
  | cons op ops ih => exact ih _ (contig_applyOp db h op)

/-- C5: in every state reachable from the empty database by any sequence
of `add_resource`, `delete_resource`, `create_reservation` and
`update_resource` operations, the resource ids are exactly the contiguous
range 1..n (in particular immediately after any `delete_resource`, which
can end the sequence). -/
theorem reachable_ids_contiguous (ops : List Op) :
    (runOps ops).resources.map Resource.id =
      List.range' 1 (runOps ops).resources.length :=
  contig_foldl ops emptyDB rfl

instance (db : DB) : Decidable (WF db) := by
  unfold WF
  infer_instance

/-! ## Concrete witness state -/

/-- A small well-formed database used to witness the hypothesised
theorems: three resources (the second unavailable), two reservations. -/
def dbW1 : DB :=
  { resources := [{ id := 1, name := "Room A", description := "a", available := 1 },
                  { id := 2, name := "Room B", description := "b", available := 0 },
                  { id := 3, name := "Room C", description := "c", available := 1 }],
    reservations := [{ id := 1, resource_id := 2, user_name := "Alice", date := "2024-01-01" },
                     { id := 2, resource_id := 3, user_name := "Bob", date := "2024-01-02" }],
    next_reservation_id := 3 }

/-- Witness for C1 at `dbW1`, deleting resource 2. -/
theorem delete_resource_renumbers_witness :
    WF dbW1 ∧ 2 ∈ dbW1.resources.map Resource.id ∧
    (survivors dbW1 2).length + 1 = dbW1.resources.length :=
  ⟨by decide, by decide, (delete_resource_renumbers dbW1 2 (by decide) (by decide)).1⟩

/-- Witness for C2 at `dbW1`: resource 2 is unavailable. -/
theorem create_reservation_failure_cases_witness :
    WF dbW1 ∧ (∃ r ∈ dbW1.resources, r.id = 2 ∧ r.available = 0) ∧
    create_reservation dbW1 2 "Carol" "2024-05-05" = (dbW1, false) :=
  ⟨by decide, by decide,
    create_reservation_failure_cases dbW1 2 "Carol" "2024-05-05" (by decide)
      (Or.inr (Or.inr (by decide)))⟩

/-- Witness for C3 at `dbW1`: resource 3 is available and Carol's name is
not blank. -/
theorem create_reservation_succeeds_once_witness :
    WF dbW1 ∧
    ({ id := 3, name := "Room C", description := "c", available := 1 } : Resource) ∈
      dbW1.resources ∧
    isBlank "Carol" = false ∧
    (create_reservation dbW1 3 "Carol" "2024-02-02").2 = true :=
  ⟨by decide, by decide, by decide,
    (create_reservation_succeeds_once dbW1 (by decide)
      { id := 3, name := "Room C", description := "c", available := 1 }
      (by decide) rfl "Carol" "2024-02-02" (by decide)).1⟩

/-- Witness for C6 at `dbW1`: a database error during the write
(`dbFail = true`) still yields `false`. -/
theorem create_reservation_never_raises_witness :
    WF dbW1 ∧ (true = true ∨ False) ∧
    (create_reservation_full true dbW1 1 "Dave" "2024-03-03").2 = false :=
  ⟨by decide, Or.inl rfl,
    create_reservation_never_raises true dbW1 1 "Dave" "2024-03-03" (by decide)
      (Or.inr (Or.inr (Or.inr rfl)))⟩

/-- Witness for C7 (amended) at `dbW1`: supplying only a new name updates
the name and nothing else. -/
theorem update_resource_partial_update_witness :
    ¬("Hall" = "" ∧ "" = "" ∧ (none : Option Nat) = none) ∧
    update_resource dbW1 1 "Hall" "" none =
      Except.ok { dbW1 with resources := dbW1.resources.map fun r =>
        if r.id = 1 then
          { r with name := if "Hall" = "" then r.name else "Hall",
                   description := if "" = "" then r.description else "",
                   available := (none : Option Nat).getD r.available }
        else r } :=
  ⟨by decide, update_resource_partial_update dbW1 1 "Hall" "" none (by decide)⟩

/-- Witness for C8 at `dbW1`, releasing reservation 1 of resource 2. -/
theorem remove_reservation_releases_witness :
    WF dbW1 ∧
    ({ id := 1, resource_id := 2, user_name := "Alice", date := "2024-01-01" } : Reservation) ∈
      dbW1.reservations ∧
    (remove_reservation dbW1 1 2).reservations =
      dbW1.reservations.erase
        { id := 1, resource_id := 2, user_name := "Alice", date := "2024-01-01" } :=
  ⟨by decide, by decide,
    (remove_reservation_releases dbW1 (by decide)
      { id := 1, resource_id := 2, user_name := "Alice", date := "2024-01-01" }
      (by decide)).1⟩
